import Mathlib

/-!
Verification of the PeerWeb repository (peerweb.js, peerweb-sw.js).

JavaScript strings are modelled as `List Char`, byte arrays as `List Nat`,
JS `Map`s and plain objects used as dictionaries as association lists
(insertion order preserved, keys unique), and fractional progress values
(WebTorrent's `progress` fields) as rationals.  Fallible operations return
`Option`.  Each definition mirrors one function of the source files.
-/

namespace PeerWeb

/-- JS `String.prototype.startsWith(pat)` on the `List Char` model
(first argument is the pattern). -/
def jsStartsWith : List Char → List Char → Bool
  | [], _ => true
  | _ :: _, [] => false
  | a :: as, b :: bs => a == b && jsStartsWith as bs

/-- JS `String.prototype.endsWith(pat)` on the `List Char` model. -/
def jsEndsWith (pat s : List Char) : Bool :=
  jsStartsWith pat.reverse s.reverse

/-- JS `String.prototype.includes(pat)` on the `List Char` model. -/
def jsIncludes (pat : List Char) : List Char → Bool
  | [] => pat.isEmpty
  | c :: rest => jsStartsWith pat (c :: rest) || jsIncludes pat rest

/-- JS `String.prototype.toLowerCase()` (ASCII is all the repository uses). -/
def jsToLower (s : List Char) : List Char :=
  s.map Char.toLower

/-- Numeric value of a digit run, most significant first. -/
def digitsToNat (ds : List Char) : Nat :=
  ds.foldl (fun n c => n * 10 + (c.toNat - ('0').toNat)) 0

/-- JS `parseInt(s)` restricted to the strings this program feeds it
(no sign, no leading whitespace): the longest leading digit run is read,
`none` standing for `NaN` when there is none. -/
def jsParseInt (s : List Char) : Option Int :=
  let ds := s.takeWhile Char.isDigit
  if ds.isEmpty then none else some (digitsToNat ds : Int)

/-- JS `x || d` applied to a `parseInt` result: `NaN` and `0` are both
falsy, so either falls through to the default. -/
def jsFalsyOr (x : Option Int) (d : Int) : Int :=
  match x with
  | none => d
  | some n => if n = 0 then d else n

/-- JS `TypedArray.prototype.slice(s, e)` (half-open, clamped) for the
non-negative indices this program produces. -/
def jsSlice (data : List Nat) (s e : Int) : List Nat :=
  (data.take e.toNat).drop s.toNat

/-- Lookup in the association-list model of a JS `Map` / dictionary object. -/
def mapGet {β : Type} (m : List (List Char × β)) (k : List Char) : Option β :=
  (m.find? (fun kv => kv.1 == k)).map (fun kv => kv.2)

/-- JS `Map.prototype.set`: overwrite in place if the key exists,
else append in insertion order. -/
def mapSet {β : Type} (m : List (List Char × β)) (k : List Char) (v : β) :
    List (List Char × β) :=
  if (m.find? (fun kv => kv.1 == k)).isSome then
    m.map (fun kv => if kv.1 == k then (k, v) else kv)
  else
    m ++ [(k, v)]

/-- JS `Map.prototype.delete`: remove the (unique) entry for the key. -/
def mapDelete {β : Type} (m : List (List Char × β)) (k : List Char) :
    List (List Char × β) :=
  m.eraseP (fun kv => kv.1 == k)

/-! ### peerweb-sw.js -/

/-- A parsed byte range (`{start, end}` in the source). -/
structure ByteRange where
  rStart : Int
  rEnd : Int
deriving DecidableEq, Repr

/-- `isMediaFile(contentType)` of peerweb-sw.js: tests content-type
prefixes; a falsy (empty) argument is rejected up front. -/
def isMediaFile (contentType : List Char) : Bool :=
  if contentType.isEmpty then false
  else
    jsStartsWith ("video/").toList contentType ||
    jsStartsWith ("audio/").toList contentType ||
    contentType == ("image/gif").toList

/-- `parseRangeHeader(rangeHeader, fileSize)` of peerweb-sw.js. -/
def parseRangeHeader (rangeHeader : List Char) (fileSize : Int) :
    Option ByteRange :=
  if !(jsStartsWith ("bytes=").toList rangeHeader) then none
  else
    let range := rangeHeader.drop 6
    let parts := range.splitOn '-'
    let start := jsFalsyOr (jsParseInt (parts.getD 0 [])) 0
    let stop := jsFalsyOr (jsParseInt (parts.getD 1 [])) (fileSize - 1)
    let start := max 0 (min start (fileSize - 1))
    let stop := max start (min stop (fileSize - 1))
    some ⟨start, stop⟩

/-- Body of a `Response`: raw bytes or text. -/
inductive SWBody where
  | bytes (data : List Nat)
  | text (s : List Char)
deriving DecidableEq, Repr

/-- The observable parts of a `Response` the service worker builds.
`contentRange` is the `(start, end, total)` triple rendered by the
source as `bytes start-end/total`. -/
structure SWResponse where
  status : Nat
  body : SWBody
  contentType : Option (List Char)
  contentLength : Option Int
  contentRange : Option (Int × Int × Int)
deriving DecidableEq, Repr

/-- `createMediaResponse(uint8Array, contentType, range)` of peerweb-sw.js:
a plain 200 when there is no range or the content type is not media,
otherwise a 206 over `slice(start, end + 1)`. -/
def createMediaResponse (data : List Nat) (contentType : List Char)
    (range : Option ByteRange) : SWResponse :=
  match range with
  | some r =>
      if isMediaFile contentType then
        { status := 206
          body := .bytes (jsSlice data r.rStart (r.rEnd + 1))
          contentType := some contentType
          contentLength := some (r.rEnd - r.rStart + 1)
          contentRange := some (r.rStart, r.rEnd, (data.length : Int)) }
      else
        { status := 200
          body := .bytes data
          contentType := some (if contentType.isEmpty
            then ("application/octet-stream").toList else contentType)
          contentLength := some (data.length : Int)
          contentRange := none }
  | none =>
      { status := 200
        body := .bytes data
        contentType := some (if contentType.isEmpty
          then ("application/octet-stream").toList else contentType)
        contentLength := some (data.length : Int)
        contentRange := none }

/-- A Pending Request entry (`{resolve, timestamp, range}` in the source;
the resolve callback is represented by the `Option SWResponse` each
handler returns). -/
structure PendingEntry where
  range : Option ByteRange
  timestamp : Nat
deriving DecidableEq, Repr

/-- A media-cache entry (`{data, contentType, length}` in the source). -/
structure CachedMedia where
  data : List Nat
  contentType : List Char
  length : Nat
deriving DecidableEq, Repr

/-- The service worker's mutable state: `currentSiteHash`,
`currentSiteFiles`, the pending-request table and the media byte cache. -/
structure SWState where
  currentSiteHash : Option (List Char)
  currentSiteFiles : List (List Char)
  pendingRequests : List (List Char × PendingEntry)
  mediaCache : List (List Char × CachedMedia)
deriving DecidableEq, Repr

/-- A `RESOURCE_RESPONSE` message from the main thread
(`{requestId, url, data, contentType}`); absent or empty `data` means
the file was not found. -/
structure ResourceResponseMsg where
  requestId : List Char
  url : List Char
  fileData : Option (List Nat)
  contentType : List Char
deriving DecidableEq, Repr

/-- The 404 built by `handleResourceResponse` when the file is missing. -/
def notFoundResponse : SWResponse :=
  { status := 404
    body := .text ("File not found in torrent").toList
    contentType := some ("text/plain").toList
    contentLength := none
    contentRange := none }

/-- `handleResourceResponse(data)` of peerweb-sw.js as a state
transition; the second component is the response handed to the pending
request's resolver (`none` when no pending entry matched, i.e. nothing
was resolved). -/
def handleResourceResponse (st : SWState) (msg : ResourceResponseMsg) :
    SWState × Option SWResponse :=
  match mapGet st.pendingRequests msg.requestId with
  | none => (st, none)
  | some pendingRequest =>
      let st1 :=
        { st with pendingRequests := mapDelete st.pendingRequests msg.requestId }
      match msg.fileData with
      | some d =>
          if d.length > 0 then
            let st2 :=
              if isMediaFile msg.contentType && decide (d.length > 1024 * 100)
              then
                { st1 with mediaCache :=
                    (mapSet st1.mediaCache msg.url ⟨d, msg.contentType, d.length⟩) }
              else st1
            (st2, some (createMediaResponse d msg.contentType
              pendingRequest.range))
          else (st1, some notFoundResponse)
      | none => (st1, some notFoundResponse)

/-- `normalizeFilePath(filePath, url)` of peerweb-sw.js; `search` and
`hash` are the query/fragment parts of the URL, `files` the
`currentSiteFiles` set. -/
def normalizeFilePath (filePath : List Char) (search hash : List Char)
    (files : List (List Char)) : List Char :=
  if filePath.isEmpty then ("index.html").toList
  else if jsEndsWith ("/").toList filePath then
    filePath ++ ("index.html").toList
  else if !(filePath.contains '.') then
    let dirPath := filePath ++ ("/index.html").toList
    if files.contains dirPath then dirPath
    else
      let htmlPath := filePath ++ (".html").toList
      if files.contains htmlPath then htmlPath
      else filePath ++ ("/index.html").toList
  else if !search.isEmpty || !hash.isEmpty then
    ((filePath.splitOn '?').getD 0 []).splitOn '#' |>.getD 0 []
  else filePath

/-- A fetch request as `handlePeerWebRequest` observes it: the full URL,
its pathname / query / fragment, and the `Range` header if any. -/
structure FetchRequest where
  url : List Char
  pathname : List Char
  search : List Char
  fragment : List Char
  rangeHeader : Option (List Char)
deriving DecidableEq, Repr

/-- The outcome of `handlePeerWebRequest`: an immediate response (400
invalid URL, 503 site-never-loaded timeout, 404 wrong site, or a cached
media response), or forwarding to `requestResourceFromMainThread` with
the file path and range it is called with. -/
inductive FetchOutcome where
  | invalidUrl
  | notLoaded
  | wrongSite (expected got : List Char)
  | response (r : SWResponse)
  | forward (url filePath : List Char) (range : Option ByteRange)
deriving DecidableEq, Repr

/-- The body of `handlePeerWebRequest(request)` of peerweb-sw.js, over
the already computed `pathParts` (the waiting loop for an unset site
hash is collapsed to its timed-out outcome). Note the source sets
`const range = null` before forwarding, whatever the `Range` header
says. -/
def handlePeerWebParts (st : SWState) (req : FetchRequest)
    (pathParts : List (List Char)) : FetchOutcome :=
  if pathParts.length < 2 ∨ pathParts.getD 0 [] ≠ ("peerweb-site").toList
  then .invalidUrl
  else
    match st.currentSiteHash with
    | none => .notLoaded
    | some cur =>
        if pathParts.getD 1 [] ≠ cur then .wrongSite cur (pathParts.getD 1 [])
        else
          match mapGet st.mediaCache req.url with
          | some cachedMedia =>
              match req.rangeHeader with
              | some rangeHeader =>
                  match parseRangeHeader rangeHeader
                      (cachedMedia.length : Int) with
                  | some range => .response (createMediaResponse
                      cachedMedia.data cachedMedia.contentType (some range))
                  | none => .response (createMediaResponse cachedMedia.data
                      cachedMedia.contentType none)
              | none => .response (createMediaResponse cachedMedia.data
                  cachedMedia.contentType none)
          | none => .forward req.url
              (normalizeFilePath
                (List.intercalate ("/").toList (pathParts.drop 2))
                req.search req.fragment st.currentSiteFiles) none

/-- `handlePeerWebRequest(request)` of peerweb-sw.js: split the
pathname on `/`, drop empty segments, and dispatch. -/
def handlePeerWebRequest (st : SWState) (req : FetchRequest) :
    FetchOutcome :=
  handlePeerWebParts st req
    ((req.pathname.splitOn '/').filter (fun part => part.length > 0))

/-- A `RESOURCE_REQUEST` message posted to the main thread. -/
structure ResourceRequestMsg where
  url : List Char
  filePath : List Char
  requestId : List Char
  range : Option ByteRange
deriving DecidableEq, Repr

/-- The synchronous prefix of `requestResourceFromMainThread`: store the
Pending Request entry and build the `RESOURCE_REQUEST` message as posted
to the client. -/
def requestResourceFromMainThread (st : SWState)
    (requestId requestUrl filePath : List Char) (range : Option ByteRange)
    (timestamp : Nat) : SWState × ResourceRequestMsg :=
  ({ st with pendingRequests :=
      (mapSet st.pendingRequests requestId ⟨range, timestamp⟩) },
   ⟨requestUrl, filePath, requestId, range⟩)

/-- The round-trip timeout picked by `requestResourceFromMainThread`:
`isMediaFile(filePath) ? 10000 : 5000` — the media test is applied to
the file path. -/
def swRequestTimeout (filePath : List Char) : Nat :=
  if isMediaFile filePath then 10000 else 5000

/-! ### peerweb.js (main thread / Site Manager) -/

namespace Main

namespace PEERWEB_CONFIG

/-- `PEERWEB_CONFIG.EARLY_PROCESS_THRESHOLD` (95% download threshold). -/
def EARLY_PROCESS_THRESHOLD : ℚ := 0.95

/-- `PEERWEB_CONFIG.ESSENTIAL_FILES_THRESHOLD` (80% of files ready). -/
def ESSENTIAL_FILES_THRESHOLD : ℚ := 0.8

/-- `PEERWEB_CONFIG.FILE_PROGRESS_THRESHOLD_REGULAR`. -/
def FILE_PROGRESS_THRESHOLD_REGULAR : ℚ := 0.8

/-- `PEERWEB_CONFIG.FILE_PROGRESS_THRESHOLD_ESSENTIAL`. -/
def FILE_PROGRESS_THRESHOLD_ESSENTIAL : ℚ := 0.9

/-- `PEERWEB_CONFIG.FILE_PROGRESS_THRESHOLD_MEDIA`. -/
def FILE_PROGRESS_THRESHOLD_MEDIA : ℚ := 0.7

end PEERWEB_CONFIG

/-- A WebTorrent file as the early-processing code reads it
(`name`, fractional `progress`). -/
structure TFile where
  name : List Char
  progress : ℚ
deriving DecidableEq, Repr

/-- A WebTorrent torrent (overall `progress` plus its files). -/
structure Torrent where
  progress : ℚ
  files : List TFile
deriving DecidableEq, Repr

/-- `findIndexFile(files)` of peerweb.js. -/
def findIndexFile (files : List TFile) : Option TFile :=
  files.find? (fun file =>
    let name := jsToLower file.name
    name == ("index.html").toList ||
      jsEndsWith ("/index.html").toList name)

/-- `hasEssentialFiles(torrent)` of peerweb.js: the fraction of files
individually at 90%+ progress, compared with
`ESSENTIAL_FILES_THRESHOLD`. -/
def hasEssentialFiles (torrent : Torrent) : Bool :=
  let availableFiles :=
    (torrent.files.filter (fun file => file.progress ≥ 0.9)).length
  let totalFiles := torrent.files.length
  decide ((availableFiles : ℚ) / (totalFiles : ℚ) ≥
    PEERWEB_CONFIG.ESSENTIAL_FILES_THRESHOLD)

/-- `shouldProcessSiteEarly(torrent)` of peerweb.js. -/
def shouldProcessSiteEarly (torrent : Torrent) : Bool :=
  if torrent.progress ≥ PEERWEB_CONFIG.EARLY_PROCESS_THRESHOLD then true
  else if (findIndexFile torrent.files).isSome && hasEssentialFiles torrent
  then true
  else false

/-- The media extensions of `isMediaFile(filename)` in peerweb.js. -/
def mediaExtensions : List (List Char) :=
  [(".mp4").toList, (".webm").toList, (".avi").toList, (".mov").toList,
   (".wmv").toList, (".flv").toList, (".mkv").toList, (".mp3").toList,
   (".wav").toList, (".ogg").toList, (".aac").toList, (".flac").toList,
   (".m4a").toList, (".gif").toList]

/-- `isMediaFile(filename)` of peerweb.js: the file-extension test. -/
def isMediaFile (filename : List Char) : Bool :=
  mediaExtensions.any (fun ext => jsEndsWith ext (jsToLower filename))

/-- The required-progress threshold `processTorrentEarly` computes for a
file before reading its bytes; its `isEssential` tests
`includes('index.html') || endsWith('.css')` on the lowercased name. -/
def requiredProgress (name : List Char) : ℚ :=
  let isMedia := isMediaFile name
  let isEssential :=
    jsIncludes ("index.html").toList (jsToLower name) ||
      jsEndsWith (".css").toList (jsToLower name)
  if isEssential then PEERWEB_CONFIG.FILE_PROGRESS_THRESHOLD_ESSENTIAL
  else if isMedia then PEERWEB_CONFIG.FILE_PROGRESS_THRESHOLD_MEDIA
  else PEERWEB_CONFIG.FILE_PROGRESS_THRESHOLD_REGULAR

/-- What `processTorrentEarly` does with a file in the current pass:
attempt to read its bytes now, or skip it (`continue`). -/
inductive EarlyAction where
  | attempt
  | skip
deriving DecidableEq, Repr

/-- The below-threshold decision of `processTorrentEarly`: a media file
below its threshold is still attempted, any other file below its
threshold is skipped for the pass. -/
def earlyFileAction (name : List Char) (progress : ℚ) : EarlyAction :=
  if progress < requiredProgress name then
    if isMediaFile name then .attempt else .skip
  else .attempt

/-- A manifest record of the Site Manager's `currentSiteData`; its
contents are irrelevant to lookup, only identity matters (JS objects are
always truthy). -/
structure FileRecord where
  id : Nat
deriving DecidableEq, Repr

/-- The path cleaning at the top of `findFileInSiteData`: strip one
leading `./`, then one leading `/`. -/
def cleanRequestPath (requestedPath : List Char) : List Char :=
  let c1 := if jsStartsWith ("./").toList requestedPath
    then requestedPath.drop 2 else requestedPath
  if jsStartsWith ("/").toList c1 then c1.drop 1 else c1

/-- Stage 1 of `findFileInSiteData`: exact match on the requested path,
then on the cleaned path. -/
def exactStage (siteData : List (List Char × FileRecord))
    (requestedPath cleanPath : List Char) : Option FileRecord :=
  match mapGet siteData requestedPath with
  | some r => some r
  | none => mapGet siteData cleanPath

/-- Stage 2 of `findFileInSiteData`: match by trailing filename
component (`split('/').pop()`) over the keys in insertion order. -/
def filenameStage (siteData : List (List Char × FileRecord))
    (cleanPath : List Char) : Option FileRecord :=
  let fileName := (cleanPath.splitOn '/').getLastD []
  (siteData.find? (fun kv => (kv.1.splitOn '/').getLastD [] == fileName)).map
    (fun kv => kv.2)

/-- Stage 3 of `findFileInSiteData`: `key.endsWith(cleanPath) ||
cleanPath.endsWith(key)` over the keys in insertion order. -/
def suffixStage (siteData : List (List Char × FileRecord))
    (cleanPath : List Char) : Option FileRecord :=
  (siteData.find? (fun kv =>
    jsEndsWith cleanPath kv.1 || jsEndsWith kv.1 cleanPath)).map
    (fun kv => kv.2)

/-- `findFileInSiteData(requestedPath)` of peerweb.js over a present
`currentSiteData` manifest. -/
def findFileInSiteData (siteData : List (List Char × FileRecord))
    (requestedPath : List Char) : Option FileRecord :=
  let cleanPath := cleanRequestPath requestedPath
  match exactStage siteData requestedPath cleanPath with
  | some r => some r
  | none =>
      match filenameStage siteData cleanPath with
      | some r => some r
      | none => suffixStage siteData cleanPath

end Main

/-! ### Helper lemmas about the JS primitives -/

theorem jsStartsWith_append (pre rest : List Char) :
    jsStartsWith pre (pre ++ rest) = true := by
  induction pre with
  | nil => rfl
  | cons c cs ih => simp [jsStartsWith, ih]

theorem jsStartsWith_cons_iff (c : Char) (cs s : List Char) :
    jsStartsWith (c :: cs) s = true ↔
      ∃ t, s = c :: t ∧ jsStartsWith cs t = true := by
  cases s with
  | nil => simp [jsStartsWith]
  | cons b bs =>
      simp only [jsStartsWith, Bool.and_eq_true, beq_iff_eq]
      constructor
      · rintro ⟨hb, ht⟩; exact ⟨bs, by rw [hb], ht⟩
      · rintro ⟨t, hbt, ht⟩
        cases hbt
        exact ⟨rfl, ht⟩

theorem jsStartsWith_append_right (pre s t : List Char)
    (h : jsStartsWith pre s = true) :
    jsStartsWith pre (s ++ t) = true := by
  induction pre generalizing s with
  | nil => rfl
  | cons c cs ih =>
      rcases (jsStartsWith_cons_iff c cs s).mp h with ⟨u, rfl, hu⟩
      simpa [jsStartsWith] using ih u hu

theorem splitOn_sep_cons (sep : Char) (l : List Char) :
    (sep :: l).splitOn sep = [] :: l.splitOn sep := by
  simp [List.splitOn, List.splitOnP_cons]

theorem splitOn_first_append {sep : Char} {a : List Char} (ha : sep ∉ a)
    (b : List Char) : (a ++ sep :: b).splitOn sep = a :: b.splitOn sep := by
  unfold List.splitOn
  refine List.splitOnP_first _ a ?_ sep (by simp) b
  intro x hx hxe
  exact absurd hx (by simp [beq_iff_eq.mp hxe] at ha ⊢; exact ha)

theorem splitOn_of_not_mem {sep : Char} {l : List Char} (h : sep ∉ l) :
    l.splitOn sep = [l] := by
  unfold List.splitOn
  refine List.splitOnP_eq_single _ l ?_
  intro x hx hxe
  exact absurd hx (by simp [beq_iff_eq.mp hxe] at h ⊢; exact h)

theorem splitOn_getD_zero (sep : Char) (l : List Char) :
    (l.splitOn sep).getD 0 [] = l.takeWhile (fun c => !(c == sep)) := by
  induction l with
  | nil => rfl
  | cons c t ih =>
      by_cases hc : c = sep
      · subst hc
        simp [splitOn_sep_cons, List.takeWhile]
      · have hne : (c == sep) = false := by simpa using hc
        have h1 : (c :: t).splitOn sep = (t.splitOn sep).modifyHead (c :: ·) := by
          simp [List.splitOn, List.splitOnP_cons, hne]
        rcases List.exists_cons_of_ne_nil
          (List.splitOnP_ne_nil (fun x => x == sep) t) with ⟨h, tl, hht⟩
        have hht' : t.splitOn sep = h :: tl := hht
        rw [h1, hht', List.modifyHead]
        simpa [List.takeWhile, hne] using by
          have := ih
          rw [hht'] at this
          simpa using this

theorem mapGet_map_replace {β : Type} (m : List (List Char × β))
    (k : List Char) (v : β)
    (h : (m.find? (fun kv => kv.1 == k)).isSome = true) :
    mapGet (m.map (fun kv => if kv.1 == k then (k, v) else kv)) k = some v := by
  unfold mapGet
  induction m with
  | nil => simp [List.find?] at h
  | cons hd tl ih =>
      by_cases hhd : (hd.1 == k) = true
      · rw [List.map_cons, List.find?_cons]
        have hf : ((if (hd.1 == k) = true then (k, v) else hd).1 == k) = true := by
          rw [if_pos hhd]; exact beq_self_eq_true k
        rw [hf, if_pos hhd]
        rfl
      · have hhd' : (hd.1 == k) = false := eq_false_of_ne_true hhd
        have htl : (tl.find? (fun kv => kv.1 == k)).isSome = true := by
          rw [List.find?_cons, hhd'] at h
          exact h
        rw [List.map_cons, List.find?_cons]
        have hf : ((if (hd.1 == k) = true then (k, v) else hd).1 == k) = false := by
          rw [if_neg hhd]; exact hhd'
        rw [hf]
        exact ih htl

theorem mapGet_append_fresh {β : Type} (m : List (List Char × β))
    (k : List Char) (v : β)
    (h : (m.find? (fun kv => kv.1 == k)).isSome = false) :
    mapGet (m ++ [(k, v)]) k = some v := by
  unfold mapGet
  induction m with
  | nil =>
      rw [List.nil_append, List.find?_cons]
      have hf : (((k, v) : List Char × β).1 == k) = true := beq_self_eq_true k
      rw [hf]
      rfl
  | cons hd tl ih =>
      by_cases hhd : (hd.1 == k) = true
      · rw [List.find?_cons, hhd] at h
        simp at h
      · have hhd' : (hd.1 == k) = false := eq_false_of_ne_true hhd
        have htl : (tl.find? (fun kv => kv.1 == k)).isSome = false := by
          rw [List.find?_cons, hhd'] at h
          exact h
        rw [List.cons_append, List.find?_cons, hhd']
        exact ih htl

theorem mapGet_mapSet_self {β : Type} (m : List (List Char × β))
    (k : List Char) (v : β) : mapGet (mapSet m k v) k = some v := by
  unfold mapSet
  by_cases h : (m.find? (fun kv => kv.1 == k)).isSome = true
  · rw [if_pos h]
    exact mapGet_map_replace m k v h
  · rw [if_neg h]
    exact mapGet_append_fresh m k v (eq_false_of_ne_true h)

theorem drop_bytesEq (r : List Char) :
    (("bytes=").toList ++ r).drop 6 = r := by
  have h6 : (("bytes=").toList).length = 6 := rfl
  calc (("bytes=").toList ++ r).drop 6
      = (("bytes=").toList ++ r).drop (("bytes=").toList).length := by rw [h6]
    _ = r := List.drop_left _ _

theorem parseRangeHeader_split (a b : List Char) (L : Int)
    (ha : '-' ∉ a) (hb : '-' ∉ b) :
    parseRangeHeader (("bytes=").toList ++ (a ++ '-' :: b)) L =
      some ⟨max 0 (min (jsFalsyOr (jsParseInt a) 0) (L - 1)),
            max (max 0 (min (jsFalsyOr (jsParseInt a) 0) (L - 1)))
              (min (jsFalsyOr (jsParseInt b) (L - 1)) (L - 1))⟩ := by
  unfold parseRangeHeader
  rw [if_neg (by simp [jsStartsWith])]
  simp only [drop_bytesEq, splitOn_first_append ha b, splitOn_of_not_mem hb]
  rfl

/-! ### Claim theorems -/

/-- C1: once a requestId's Pending Request entry is gone from the
pending-request table, a `RESOURCE_RESPONSE` carrying that requestId is
a no-op: it resolves no response, deletes nothing, and leaves the
pending-request table and the media byte cache unchanged (the whole
state is returned as it was). -/
theorem lateResourceResponse_noop (st : SWState) (msg : ResourceResponseMsg)
    (h : mapGet st.pendingRequests msg.requestId = none) :
    handleResourceResponse st msg = (st, none) := by
  unfold handleResourceResponse
  rw [h]

/-- Concrete state for the C1 witness: one pending request `req_a`,
one cached media entry. -/
def stLate : SWState :=
  ⟨some ("cafe").toList, [],
   [(("req_a").toList, ⟨none, 3⟩)],
   [(("u").toList, ⟨[7], ("video/mp4").toList, 1⟩)]⟩

/-- A late `RESOURCE_RESPONSE` for the already-removed `req_b`. -/
def msgLate : ResourceResponseMsg :=
  ⟨("req_b").toList, ("u").toList, some [1, 2, 3], ("text/html").toList⟩

/-- C1 witness: the no-op theorem applied at a concrete state and a
concrete late message. -/
theorem lateResourceResponse_noop_witness :
    mapGet stLate.pendingRequests msgLate.requestId = none ∧
    handleResourceResponse stLate msgLate = (stLate, none) :=
  ⟨by decide, lateResourceResponse_noop stLate msgLate (by decide)⟩

/-- C2: for every file length `L ≥ 1` and every header
`bytes=<start>-<end>` (the two fields are arbitrary `-`-free strings),
`parseRangeHeader` yields a range with `0 ≤ start ≤ end ≤ L-1`; a
missing end defaults to `L-1`, a missing or non-numeric start defaults
to `0`; `parseRangeHeader("bytes=100-", 1000) = {start:100, end:999}`;
and for a media content type the 206 built by `createMediaResponse`
carries exactly the byte slice `[start, end]`,
`Content-Length = end-start+1` (which is also the body's length), and a
`Content-Range` of `bytes start-end/L`. -/
theorem parseRange_clamps_and_partialResponse_exact :
    (∀ (a b : List Char) (L : Int), '-' ∉ a → '-' ∉ b → 1 ≤ L →
      ∃ r : ByteRange,
        parseRangeHeader (("bytes=").toList ++ (a ++ '-' :: b)) L = some r ∧
        0 ≤ r.rStart ∧ r.rStart ≤ r.rEnd ∧ r.rEnd ≤ L - 1) ∧
    (∀ (a : List Char) (L : Int), '-' ∉ a → 1 ≤ L →
      ∃ r : ByteRange,
        parseRangeHeader (("bytes=").toList ++ (a ++ '-' :: [])) L = some r ∧
        r.rEnd = L - 1) ∧
    (∀ (a b : List Char) (L : Int), '-' ∉ a → '-' ∉ b → 1 ≤ L →
      jsParseInt a = none →
      ∃ r : ByteRange,
        parseRangeHeader (("bytes=").toList ++ (a ++ '-' :: b)) L = some r ∧
        r.rStart = 0) ∧
    parseRangeHeader (("bytes=100-").toList) 1000 = some ⟨100, 999⟩ ∧
    (∀ (data : List Nat) (ct : List Char) (s e : Int),
      isMediaFile ct = true → 0 ≤ s → s ≤ e → e ≤ (data.length : Int) - 1 →
      createMediaResponse data ct (some ⟨s, e⟩) =
        { status := 206
          body := .bytes ((data.drop s.toNat).take (e - s + 1).toNat)
          contentType := some ct
          contentLength := some (e - s + 1)
          contentRange := some (s, e, (data.length : Int)) } ∧
      ((data.drop s.toNat).take (e - s + 1).toNat).length =
        (e - s + 1).toNat) := by
  refine ⟨?_, ?_, ?_, by decide, ?_⟩
  · intro a b L ha hb hL
    refine ⟨_, parseRangeHeader_split a b L ha hb, ?_, ?_, ?_⟩
    all_goals simp
    all_goals omega
  · intro a L ha hL
    refine ⟨_, parseRangeHeader_split a [] L ha (by simp), ?_⟩
    have hpb : jsParseInt ([] : List Char) = none := rfl
    simp [hpb, jsFalsyOr]
    omega
  · intro a b L ha hb hL hpa
    refine ⟨_, parseRangeHeader_split a b L ha hb, ?_⟩
    simp [hpa, jsFalsyOr]
  · intro data ct s e hm hs hse he
    constructor
    · have hbody : jsSlice data s (e + 1) =
          (data.drop s.toNat).take (e - s + 1).toNat := by
        unfold jsSlice
        rw [List.take_drop]
        have harg : s.toNat + (e - s + 1).toNat = (e + 1).toNat := by omega
        rw [harg]
      simp only [createMediaResponse, hm, if_true]
      rw [hbody]
    · rw [List.length_take, List.length_drop]
      omega

/-- C2 witness: the clamping part at `bytes=7-25` against length 50,
and the partial-response part at a four-byte media file with range
`{start:1, end:2}`. -/
theorem parseRange_clamps_and_partialResponse_exact_witness :
    ('-' ∉ ("7").toList) ∧ ('-' ∉ ("25").toList) ∧ (1 ≤ (50 : Int)) ∧
    (∃ r : ByteRange,
      parseRangeHeader (("bytes=").toList ++ (("7").toList ++ '-' ::
        ("25").toList)) 50 = some r ∧
      0 ≤ r.rStart ∧ r.rStart ≤ r.rEnd ∧ r.rEnd ≤ 50 - 1) ∧
    (isMediaFile ("video/mp4").toList = true) ∧
    (createMediaResponse [10, 20, 30, 40] ("video/mp4").toList
        (some ⟨1, 2⟩) =
      { status := 206
        body := .bytes ((([10, 20, 30, 40] : List Nat).drop
          (1 : Int).toNat).take ((2 : Int) - 1 + 1).toNat)
        contentType := some ("video/mp4").toList
        contentLength := some ((2 : Int) - 1 + 1)
        contentRange := some (1, 2, (([10, 20, 30, 40] :
          List Nat).length : Int)) } ∧
      ((([10, 20, 30, 40] : List Nat).drop (1 : Int).toNat).take
        ((2 : Int) - 1 + 1).toNat).length = ((2 : Int) - 1 + 1).toNat) :=
  ⟨by decide, by decide, by decide,
   parseRange_clamps_and_partialResponse_exact.1 (("7").toList)
     (("25").toList) 50 (by decide) (by decide) (by decide),
   by decide,
   parseRange_clamps_and_partialResponse_exact.2.2.2.2 [10, 20, 30, 40]
     (("video/mp4").toList) 1 2 (by decide) (by decide) (by decide)
     (by decide)⟩

/-- C10: for every file size `L ≥ 1`, `parseRangeHeader("bytes=0-0", L)`
returns `{start: 0, end: L-1}`: the explicit end value `0` is falsy in
`parseInt(parts[1]) || fileSize - 1` and so defaults to the last byte,
answering a request for the first byte alone with the whole-file span. -/
theorem parseRange_zero_zero_whole_file (L : Int) (hL : 1 ≤ L) :
    parseRangeHeader (("bytes=0-0").toList) L = some ⟨0, L - 1⟩ := by
  have heq : ("bytes=0-0").toList =
      ("bytes=").toList ++ (['0'] ++ '-' :: ['0']) := rfl
  rw [heq, parseRangeHeader_split ['0'] ['0'] L (by decide) (by decide)]
  have h0 : jsFalsyOr (jsParseInt ['0']) 0 = 0 := rfl
  have h1 : jsFalsyOr (jsParseInt ['0']) (L - 1) = L - 1 := by
    simp [jsParseInt, jsFalsyOr, digitsToNat]
  rw [h0, h1]
  simp only [Option.some.injEq, ByteRange.mk.injEq]
  omega

/-- C10 witness: the theorem applied at `L = 1000`. -/
theorem parseRange_zero_zero_whole_file_witness :
    1 ≤ (1000 : Int) ∧
    parseRangeHeader (("bytes=0-0").toList) 1000 = some ⟨0, 999⟩ :=
  ⟨by decide, by
    have h := parseRange_zero_zero_whole_file 1000 (by decide)
    simpa using h⟩

/-- C3 amended: the site-identifier comparison in
`handlePeerWebRequest` is exact case-sensitive string equality: any
request whose identifier segment differs from the ready identifier —
including one differing only in letter case — is answered with the 404
wrong-site outcome, not resolved. -/
theorem siteHash_comparison_is_caseSensitive
    (cur got url search frag : List Char) (rh : Option (List Char))
    (files : List (List Char)) (pend : List (List Char × PendingEntry))
    (cache : List (List Char × CachedMedia))
    (hne : got ≠ cur) (hs : '/' ∉ got) (hnil : got ≠ []) :
    handlePeerWebRequest ⟨some cur, files, pend, cache⟩
      ⟨url,
       '/' :: (("peerweb-site").toList ++ '/' ::
         (got ++ '/' :: ("index.html").toList)),
       search, frag, rh⟩ = .wrongSite cur got := by
  have hA : '/' ∉ ("peerweb-site").toList := by decide
  have hI : '/' ∉ ("index.html").toList := by decide
  have hsplit : ('/' :: (("peerweb-site").toList ++ '/' ::
      (got ++ '/' :: ("index.html").toList))).splitOn '/' =
      [] :: ("peerweb-site").toList :: got :: [("index.html").toList] := by
    rw [splitOn_sep_cons, splitOn_first_append hA, splitOn_first_append hs,
      splitOn_of_not_mem hI]
  have hgot : 0 < got.length := List.length_pos.mpr hnil
  have hfilter : ([] :: ("peerweb-site").toList :: got ::
      [("index.html").toList]).filter (fun part => part.length > 0) =
      [("peerweb-site").toList, got, ("index.html").toList] := by
    simp [List.filter, hgot]
  unfold handlePeerWebRequest
  rw [hsplit, hfilter]
  unfold handlePeerWebParts
  rw [if_neg (by simp)]
  simp [hne]

/-- The lowercase canonical 40-hex identifier used in the C3 scenario. -/
def hashLower : List Char :=
  ("aaaaaaaaaaaaaaaaaaaaaaaaaaaaaaaaaaaaaaaa").toList

/-- The all-uppercase form of [hashLower]. -/
def hashUpper : List Char :=
  ("AAAAAAAAAAAAAAAAAAAAAAAAAAAAAAAAAAAAAAAA").toList

/-- C3 counterexample: with the lowercase canonical identifier ready,
the all-uppercase request (the claim's scenario, which it says must be
resolved normally) is answered with the wrong-site 404 outcome. -/
theorem siteHash_uppercase_rejected_cex :
    handlePeerWebRequest ⟨some hashLower, [], [], []⟩
      ⟨("/peerweb-site/AAAAAAAAAAAAAAAAAAAAAAAAAAAAAAAAAAAAAAAA/index.html").toList,
       ("/peerweb-site/AAAAAAAAAAAAAAAAAAAAAAAAAAAAAAAAAAAAAAAA/index.html").toList,
       [], [], none⟩ = .wrongSite hashLower hashUpper := by
  decide

/-- C3 witness: the case-sensitivity theorem applied to the concrete
uppercase/lowercase pair. -/
theorem siteHash_comparison_is_caseSensitive_witness :
    hashUpper ≠ hashLower ∧ '/' ∉ hashUpper ∧ hashUpper ≠ [] ∧
    handlePeerWebRequest ⟨some hashLower, [], [], []⟩
      ⟨("u").toList,
       '/' :: (("peerweb-site").toList ++ '/' ::
         (hashUpper ++ '/' :: ("index.html").toList)),
       [], [], none⟩ = .wrongSite hashLower hashUpper :=
  ⟨by decide, by decide, by decide,
   siteHash_comparison_is_caseSensitive hashLower hashUpper (("u").toList)
     [] [] none [] [] [] (by decide) (by decide) (by decide)⟩

/-- C9 amended: the Pending Request entry stored for a forwarded
request and the `RESOURCE_REQUEST` message both carry `range = null`
even when the request had a `Range` header: every forward outcome of
`handlePeerWebRequest` has range `none` (the source's `const range =
null`), and `requestResourceFromMainThread` stores and sends exactly
the range it is given. -/
theorem forwarded_range_always_null :
    (∀ (st : SWState) (req : FetchRequest) (u fp : List Char)
      (rng : Option ByteRange),
      handlePeerWebRequest st req = .forward u fp rng → rng = none) ∧
    (∀ (st : SWState) (id u fp : List Char) (rng : Option ByteRange)
      (ts : Nat),
      mapGet (requestResourceFromMainThread st id u fp rng
          ts).1.pendingRequests id = some ⟨rng, ts⟩ ∧
      (requestResourceFromMainThread st id u fp rng ts).2.range = rng) := by
  constructor
  · intro st req u fp rng h
    unfold handlePeerWebRequest handlePeerWebParts at h
    repeat' split at h
    all_goals simp_all
  · intro st id u fp rng ts
    exact ⟨mapGet_mapSet_self _ _ _, rfl⟩

/-- The service-worker state of the C9 scenario: site ready, media
cache empty, no pending requests. -/
def stRange : SWState := ⟨some hashLower, [], [], []⟩

/-- The C9 request: a site-scoped media URL carrying
`Range: bytes=0-99`. -/
def reqRange : FetchRequest :=
  ⟨("/peerweb-site/aaaaaaaaaaaaaaaaaaaaaaaaaaaaaaaaaaaaaaaa/v.mp4").toList,
   ("/peerweb-site/aaaaaaaaaaaaaaaaaaaaaaaaaaaaaaaaaaaaaaaa/v.mp4").toList,
   [], [], some (("bytes=0-99").toList)⟩

/-- C9 counterexample: the request carries a `Range` header, yet the
forward outcome, the stored Pending Request entry, and the
`RESOURCE_REQUEST` message all carry `range = none` rather than the
parsed `{start: 0, end: 99}` the claim requires. -/
theorem pendingRange_null_despite_rangeHeader_cex :
    reqRange.rangeHeader = some (("bytes=0-99").toList) ∧
    handlePeerWebRequest stRange reqRange =
      .forward reqRange.url (("v.mp4").toList) none ∧
    (requestResourceFromMainThread stRange (("req_1").toList)
        reqRange.url (("v.mp4").toList) none 5).1.pendingRequests =
      [(("req_1").toList, ⟨none, 5⟩)] ∧
    (requestResourceFromMainThread stRange (("req_1").toList)
        reqRange.url (("v.mp4").toList) none 5).2.range = none ∧
    (none : Option ByteRange) ≠ some ⟨0, 99⟩ := by
  refine ⟨by decide, by decide, by decide, by decide, by decide⟩

/-- C9 witness: the always-null theorem applied to the concrete
range-carrying request. -/
theorem forwarded_range_always_null_witness :
    handlePeerWebRequest stRange reqRange =
      .forward reqRange.url (("v.mp4").toList) none ∧
    (none : Option ByteRange) = none :=
  ⟨by decide,
   forwarded_range_always_null.1 stRange reqRange reqRange.url
     (("v.mp4").toList) none (by decide)⟩

/-- C6 amended: `normalizeFilePath` is not insensitive to a leading
`./` — it never strips it: for every path beginning with `./`, the
normalized result still begins with `./` (whatever the query/fragment
and known-file set), so it can differ from the normalization of the
stripped path; the stripping happens later, in the Site Manager's
`findFileInSiteData`. -/
theorem normalizeFilePath_preserves_leading_dotSlash
    (p search frag : List Char) (files : List (List Char))
    (hp : jsStartsWith ("./").toList p = true) :
    jsStartsWith ("./").toList (normalizeFilePath p search frag files)
      = true := by
  rcases (jsStartsWith_cons_iff _ _ _).mp hp with ⟨t1, rfl, hp1⟩
  rcases (jsStartsWith_cons_iff _ _ _).mp hp1 with ⟨rest, rfl, h0⟩
  unfold normalizeFilePath
  rw [if_neg (by simp)]
  by_cases hE : jsEndsWith (("/").toList) ('.' :: '/' :: rest) = true
  · rw [if_pos hE]
    exact jsStartsWith_append_right _ _ _ (by simp [jsStartsWith])
  · rw [if_neg hE]
    rw [if_neg (by simp [List.contains_cons])]
    by_cases hQ : (!search.isEmpty || !frag.isEmpty) = true
    · rw [if_pos hQ]
      rw [splitOn_getD_zero, splitOn_getD_zero]
      simp [List.takeWhile_cons, jsStartsWith]
    · rw [if_neg hQ]
      simp [jsStartsWith]

/-- C6 counterexample: `normalizeFilePath('./about')` keeps the `./`
and returns `./about`, while the stripped path `about` normalizes to
`about/index.html` — the two results differ, refuting
`normalize(p) = normalize(strip_leading_dotslash(p))`. -/
theorem normalizeFilePath_dotSlash_cex :
    normalizeFilePath ("./about").toList [] [] [] = ("./about").toList ∧
    normalizeFilePath ("about").toList [] [] [] =
      ("about/index.html").toList ∧
    ("./about").toList ≠ ("about/index.html").toList := by
  refine ⟨by decide, by decide, by decide⟩

/-- C6 witness: the prefix-preservation theorem applied to
`./style.css`. -/
theorem normalizeFilePath_preserves_leading_dotSlash_witness :
    jsStartsWith ("./").toList ("./style.css").toList = true ∧
    jsStartsWith ("./").toList
      (normalizeFilePath ("./style.css").toList [] [] []) = true :=
  ⟨by decide,
   normalizeFilePath_preserves_leading_dotSlash ("./style.css").toList
     [] [] [] (by decide)⟩

/-- C8: evaluating the timeout choice of
`requestResourceFromMainThread` at media file paths: because
`isMediaFile` tests content-type prefixes (`video/`, `audio/`,
`image/gif`) and is handed a file path here, `.mp4` and `.mp3` paths
are classified non-media and get the 5000 ms timeout, not the 10000 ms
the code's own comment (`Timeout after 10 seconds for media files`)
and the spec promise. -/
theorem swRequestTimeout_mediaPath_is_5000 :
    swRequestTimeout ("movie.mp4").toList = 5000 ∧
    swRequestTimeout ("song.mp3").toList = 5000 ∧
    isMediaFile ("movie.mp4").toList = false ∧
    isMediaFile ("song.mp3").toList = false := by
  refine ⟨by decide, by decide, by decide, by decide⟩

end PeerWeb

namespace PeerWeb.Main

/-- The C4 torrent with no index file: overall progress `0.85`, 50
files of which 41 are at 95% (ready ratio `41/50 = 0.82`). -/
def ctNoIndex : Torrent :=
  ⟨17/20, List.replicate 41 ⟨("a.txt").toList, 19/20⟩ ++
    List.replicate 9 ⟨("b.txt").toList, 1/2⟩⟩

/-- The C4 scenario torrent: as [ctNoIndex] but one of the ready files
is `index.html` (ready ratio still `41/50 = 0.82`). -/
def ctWithIndex : Torrent :=
  ⟨17/20, ⟨("index.html").toList, 19/20⟩ ::
    (List.replicate 40 ⟨("a.txt").toList, 19/20⟩ ++
      List.replicate 9 ⟨("b.txt").toList, 1/2⟩)⟩

/-- C4 counterexample: a torrent whose essential-file ratio `0.82`
satisfies the claim's trigger condition (`hasEssentialFiles` is true)
yet `shouldProcessSiteEarly` returns false, because the code also
requires `findIndexFile` to succeed and this torrent has no index
file. -/
theorem earlyProcessing_without_index_cex :
    hasEssentialFiles ctNoIndex = true ∧
    shouldProcessSiteEarly ctNoIndex = false := by
  have h1 : hasEssentialFiles ctNoIndex = true := by
    unfold hasEssentialFiles ctNoIndex
    rw [List.filter_append, List.filter_replicate, List.filter_replicate]
    norm_num [PEERWEB_CONFIG.ESSENTIAL_FILES_THRESHOLD]
  refine ⟨h1, ?_⟩
  unfold shouldProcessSiteEarly
  rw [if_neg (by norm_num [ctNoIndex, PEERWEB_CONFIG.EARLY_PROCESS_THRESHOLD])]
  have hfind : findIndexFile ctNoIndex.files = none := by decide
  simp [hfind]

/-- C4 amended: early processing triggers exactly when overall
completion is at least `0.95`, or when an index file is present AND
the ratio of files individually at 90%+ is at least `0.8`; in the
claim's scenario (progress `0.85`, ratio `0.82`) with an `index.html`
among the files, it triggers on the essential-file branch. -/
theorem shouldProcessSiteEarly_characterization :
    (∀ t : Torrent,
      shouldProcessSiteEarly t = true ↔
        ((19 : ℚ)/20 ≤ t.progress ∨
          ((findIndexFile t.files).isSome = true ∧
            hasEssentialFiles t = true))) ∧
    (¬((19 : ℚ)/20 ≤ ctWithIndex.progress) ∧
      hasEssentialFiles ctWithIndex = true ∧
      shouldProcessSiteEarly ctWithIndex = true) := by
  have hiff : ∀ t : Torrent,
      shouldProcessSiteEarly t = true ↔
        ((19 : ℚ)/20 ≤ t.progress ∨
          ((findIndexFile t.files).isSome = true ∧
            hasEssentialFiles t = true)) := by
    intro t
    unfold shouldProcessSiteEarly
    have hth : PEERWEB_CONFIG.EARLY_PROCESS_THRESHOLD = (19 : ℚ)/20 := by
      norm_num [PEERWEB_CONFIG.EARLY_PROCESS_THRESHOLD]
    rw [hth]
    by_cases h1 : (19 : ℚ)/20 ≤ t.progress
    · simp [h1, ge_iff_le]
    · rw [if_neg (by simpa [ge_iff_le] using h1)]
      by_cases h2 : ((findIndexFile t.files).isSome &&
          hasEssentialFiles t) = true
      · simp only [if_pos h2]
        simp at h2
        simp [h1, h2]
      · simp only [if_neg h2]
        simp at h2 ⊢
        exact ⟨not_le.mp h1, h2⟩
  have hprog : ¬((19 : ℚ)/20 ≤ ctWithIndex.progress) := by
    norm_num [ctWithIndex]
  have h1 : hasEssentialFiles ctWithIndex = true := by
    unfold hasEssentialFiles ctWithIndex
    rw [List.filter_cons, List.filter_append, List.filter_replicate,
      List.filter_replicate]
    norm_num [PEERWEB_CONFIG.ESSENTIAL_FILES_THRESHOLD]
  have hfind : (findIndexFile ctWithIndex.files).isSome = true := by decide
  exact ⟨hiff, hprog, h1, (hiff ctWithIndex).mpr (Or.inr ⟨hfind, h1⟩)⟩

/-- C5 amended: during early materialization the required-progress
threshold is `0.9` for files whose lowercased name contains
`index.html` or ends in `.css` (NOT `.js`, which counts as essential
only for processing order and gets the regular threshold), `0.7` for
media files, and `0.8` for everything else; a media file below its
threshold is still attempted, every other file below its threshold is
skipped for the pass. -/
theorem requiredProgress_thresholds :
    (∀ name : List Char,
      (jsIncludes ("index.html").toList (jsToLower name) = true ∨
        jsEndsWith (".css").toList (jsToLower name) = true) →
      requiredProgress name = 9/10) ∧
    (∀ name : List Char,
      jsIncludes ("index.html").toList (jsToLower name) = false →
      jsEndsWith (".css").toList (jsToLower name) = false →
      isMediaFile name = true → requiredProgress name = 7/10) ∧
    (∀ name : List Char,
      jsIncludes ("index.html").toList (jsToLower name) = false →
      jsEndsWith (".css").toList (jsToLower name) = false →
      isMediaFile name = false → requiredProgress name = 4/5) ∧
    (∀ (name : List Char) (q : ℚ),
      earlyFileAction name q = .skip ↔
        (q < requiredProgress name ∧ isMediaFile name = false)) := by
  refine ⟨?_, ?_, ?_, ?_⟩
  · intro name h
    unfold requiredProgress
    rw [if_pos (Bool.or_eq_true _ _ ▸ h)]
    norm_num [PEERWEB_CONFIG.FILE_PROGRESS_THRESHOLD_ESSENTIAL]
  · intro name h1 h2 h3
    unfold requiredProgress
    rw [if_neg (by
      intro hc
      rcases (Bool.or_eq_true _ _).mp hc with hx | hx
      · exact absurd hx (ne_true_of_eq_false h1)
      · exact absurd hx (ne_true_of_eq_false h2))]
    rw [if_pos h3]
    norm_num [PEERWEB_CONFIG.FILE_PROGRESS_THRESHOLD_MEDIA]
  · intro name h1 h2 h3
    unfold requiredProgress
    rw [if_neg (by
      intro hc
      rcases (Bool.or_eq_true _ _).mp hc with hx | hx
      · exact absurd hx (ne_true_of_eq_false h1)
      · exact absurd hx (ne_true_of_eq_false h2))]
    rw [if_neg (by simp [h3])]
    norm_num [PEERWEB_CONFIG.FILE_PROGRESS_THRESHOLD_REGULAR]
  · intro name q
    unfold earlyFileAction
    by_cases hlt : q < requiredProgress name
    · rw [if_pos hlt]
      by_cases hm : isMediaFile name = true
      · simp [hm, hlt]
      · simp at hm
        simp [hm, hlt]
    · rw [if_neg hlt]
      simp [hlt]

/-- C5 counterexample: `app.js` — essential per the claim, so it should
get the `0.9` threshold — receives the regular `0.8` threshold, because
the code's `isEssential` check in `processTorrentEarly` tests only
`index.html` and `.css`. -/
theorem requiredProgress_js_file_cex :
    requiredProgress ("app.js").toList = 4/5 ∧
    ¬(requiredProgress ("app.js").toList = 9/10) := by
  have h : requiredProgress ("app.js").toList = 4/5 := by
    unfold requiredProgress
    rw [if_neg (by decide), if_neg (by decide)]
    norm_num [PEERWEB_CONFIG.FILE_PROGRESS_THRESHOLD_REGULAR]
  exact ⟨h, by rw [h]; norm_num⟩

/-- C5 witness: the essential-threshold clause applied to `style.css`. -/
theorem requiredProgress_thresholds_witness :
    (jsIncludes ("index.html").toList (jsToLower ("style.css").toList) =
        true ∨
      jsEndsWith (".css").toList (jsToLower ("style.css").toList) = true) ∧
    requiredProgress ("style.css").toList = 9/10 :=
  ⟨Or.inr (by decide), requiredProgress_thresholds.1 _ (Or.inr (by decide))⟩

/-- C7 amended: for requested path `foo` against the manifest
`{sub/foo.html}`, lookup does fall through the exact and
trailing-filename stages, but the suffix/prefix stage fails as well
(`sub/foo.html` neither ends with `foo` nor is a suffix of it), so
`findFileInSiteData` returns null; requesting `foo.html` instead does
resolve to `sub/foo.html`'s record (via the trailing-filename stage). -/
theorem lookup_foo_subfoo_stages :
    exactStage [(("sub/foo.html").toList, ⟨1⟩)] ("foo").toList
      (cleanRequestPath ("foo").toList) = none ∧
    filenameStage [(("sub/foo.html").toList, ⟨1⟩)]
      (cleanRequestPath ("foo").toList) = none ∧
    suffixStage [(("sub/foo.html").toList, ⟨1⟩)]
      (cleanRequestPath ("foo").toList) = none ∧
    findFileInSiteData [(("sub/foo.html").toList, ⟨1⟩)]
      ("foo").toList = none ∧
    findFileInSiteData [(("sub/foo.html").toList, ⟨1⟩)]
      ("foo.html").toList = some ⟨1⟩ := by
  refine ⟨by decide, by decide, by decide, by decide, by decide⟩

/-- C7 counterexample: the lookup the claim says returns
`sub/foo.html`'s record (non-null) actually returns null. -/
theorem lookup_foo_subfoo_cex :
    findFileInSiteData [(("sub/foo.html").toList, ⟨1⟩)]
      ("foo").toList = none := by
  decide

end PeerWeb.Main
